import Mathlib

/-!
Verification of `utils/create_srg_export.py`.

The Python script is shallowly embedded below.  XML documents (as produced by
`xml.etree.ElementTree`) are modelled by the inductive type `XElem`: an element
has a tag, an attribute list, an optional text (the text standing before the
first child, `Element.text`), and a list of child elements.  Namespace-qualified
tags such as `find("xccdf-1.1:version", NS)` are modelled by using the
prefix-qualified query string itself as the tag name; the `NS` dictionary of the
script only translates these fixed prefixes to fixed URIs, a bijection on the
names the script uses, so the qualified names are kept abstract.

Python runtime failures (`KeyError`, `AttributeError` on `None`,
`ET.ParseError`, ...) are modelled with `Except Err`.  File-system access and
the external `ssg` library collaborators are modelled by an explicit
environment (`Env`) of functions supplied to `main`.
-/

namespace CreateSrgExport

/-- Error values standing for the Python exceptions the script can raise. -/
inductive Err where
  | keyError (k : String)
  | attrError
  | typeError
  | parseError
  | valueError
  | ioError (msg : String)
  | libError (msg : String)
  deriving DecidableEq, Repr

/-- Association-list lookup with String keys, first matching pair wins
(Python dict lookup). -/
def alookup {α : Type} : List (String × α) → String → Option α
  | [], _ => none
  | (k, v) :: rest, key => if k = key then some v else alookup rest key

/-- An XML element in the `xml.etree.ElementTree` data model: tag, attributes,
text before the first child (`Element.text`), and the child elements.  Tail
strings of children (`Element.tail`) are not used by the script and are not
represented. -/
inductive XElem where
  | mk (tag : String) (attrib : List (String × String))
       (text : Option String) (children : List XElem)

/-- Tag of an element. -/
def XElem.tag : XElem → String
  | .mk t _ _ _ => t

/-- Attribute list of an element. -/
def XElem.attrib : XElem → List (String × String)
  | .mk _ a _ _ => a

/-- Text of an element (`Element.text`). -/
def XElem.text : XElem → Option String
  | .mk _ _ t _ => t

/-- Child elements of an element. -/
def XElem.children : XElem → List XElem
  | .mk _ _ _ c => c

/-- Model of `Element.find(tag)`: the first direct child with the given tag,
or `None`. -/
def find (e : XElem) (t : String) : Option XElem :=
  e.children.find? (fun c => c.tag = t)

/-- Model of `Element.findall(tag)`: every direct child with the given tag, in
document order. -/
def findall (e : XElem) (t : String) : List XElem :=
  e.children.filter (fun c => c.tag = t)

/-- Model of `Element.get(attr)`: attribute lookup, `None` when absent. -/
def attrGet (e : XElem) (a : String) : Option String :=
  alookup e.attrib a

/-- Model of the path query `find("xccdf-1.1:ident[@system='http://cyber.mil/cci']")`:
first child with tag `xccdf-1.1:ident` whose `system` attribute equals the CCI
system URI. -/
def findIdentCci (e : XElem) : Option XElem :=
  e.children.find? (fun c =>
    c.tag = "xccdf-1.1:ident" && attrGet c "system" = some "http://cyber.mil/cci")

/-! ## A small XML parser, modelling `ET.fromstring`

The script re-parses the (unescaped) text of the `description` element as XML.
The parser below covers the XML fragment language that text lives in: nested
elements with attributes, character data with the five predefined entities, and
self-closing tags.  A bare `&` that does not start a predefined entity is a
parse error, as in `ET.fromstring` (numeric character references and
doctype/comment/processing-instruction nodes never occur in this data and are
not modelled). -/

/-- Characters allowed in an XML name, as far as the tags of this data go. -/
def isNameChar (c : Char) : Bool :=
  c.isAlphanum || c = '_' || c = '-' || c = '.' || c = ':'

/-- Split off the longest prefix of name characters. -/
def takeName : List Char → List Char × List Char
  | [] => ([], [])
  | c :: rest =>
    if isNameChar c then
      let (n, r) := takeName rest
      (c :: n, r)
    else ([], c :: rest)

/-- Decode one predefined entity reference standing after a `&`. -/
def decodeEntity : List Char → Option (Char × List Char)
  | 'l' :: 't' :: ';' :: r => some ('<', r)
  | 'g' :: 't' :: ';' :: r => some ('>', r)
  | 'a' :: 'm' :: 'p' :: ';' :: r => some ('&', r)
  | 'q' :: 'u' :: 'o' :: 't' :: ';' :: r => some ('"', r)
  | 'a' :: 'p' :: 'o' :: 's' :: ';' :: r => some ('\'', r)
  | _ => none

/-- Worker of `takeText`; one unit of fuel is spent per decoded character, so
fuel equal to the input length always suffices. -/
def takeTextF : Nat → List Char → Option (List Char × List Char)
  | _, [] => some ([], [])
  | 0, _ => none
  | Nat.succ fuel, c :: rest =>
    if c = '<' then some ([], c :: rest)
    else if c = '&' then
      match decodeEntity rest with
      | none => none
      | some (d, r) => (takeTextF fuel r).map (fun p => (d :: p.1, p.2))
    else (takeTextF fuel rest).map (fun p => (c :: p.1, p.2))

/-- Character data up to the next `<` (or the end of input), with the five
predefined entities decoded; a bare `&` is a parse error (`none`). -/
def takeText (l : List Char) : Option (List Char × List Char) :=
  takeTextF l.length l

/-- Attribute value up to the closing quote, entities decoded. -/
def takeAttrValue (q : Char) : List Char → Option (List Char × List Char)
  | [] => none
  | '&' :: 'l' :: 't' :: ';' :: rest =>
    (takeAttrValue q rest).map (fun p => ('<' :: p.1, p.2))
  | '&' :: 'g' :: 't' :: ';' :: rest =>
    (takeAttrValue q rest).map (fun p => ('>' :: p.1, p.2))
  | '&' :: 'a' :: 'm' :: 'p' :: ';' :: rest =>
    (takeAttrValue q rest).map (fun p => ('&' :: p.1, p.2))
  | '&' :: 'q' :: 'u' :: 'o' :: 't' :: ';' :: rest =>
    (takeAttrValue q rest).map (fun p => ('"' :: p.1, p.2))
  | '&' :: 'a' :: 'p' :: 'o' :: 's' :: ';' :: rest =>
    (takeAttrValue q rest).map (fun p => ('\'' :: p.1, p.2))
  | '&' :: _ => none
  | c :: rest =>
    if c = q then some ([], rest)
    else (takeAttrValue q rest).map (fun p => (c :: p.1, p.2))

/-- Drop leading XML whitespace. -/
def skipWs : List Char → List Char
  | c :: rest =>
    if c = ' ' || c = '\t' || c = '\n' || c = '\r' then skipWs rest else c :: rest
  | [] => []

/-- Element text: the empty character run becomes `None`, as in ElementTree. -/
def optText (l : List Char) : Option String :=
  if l = [] then none else some (String.mk l)

mutual

/-- Parse one element starting at `<`.  The fuel argument bounds the recursion
depth; it is instantiated with the input length, which is always enough. -/
def parseElement : Nat → List Char → Option (XElem × List Char)
  | 0, _ => none
  | Nat.succ fuel, input =>
    match input with
    | '<' :: rest =>
      match takeName rest with
      | ([], _) => none
      | (c :: n, afterName) =>
        match parseAttrs fuel afterName with
        | none => none
        | some (attrs, rest1) =>
          match rest1 with
          | '/' :: '>' :: rest2 => some (.mk (String.mk (c :: n)) attrs none [], rest2)
          | '>' :: rest2 =>
            match takeText rest2 with
            | none => none
            | some (txt, rest3) =>
              match parseContent fuel (String.mk (c :: n)) rest3 with
              | none => none
              | some (children, rest4) =>
                some (.mk (String.mk (c :: n)) attrs (optText txt) children, rest4)
          | _ => none
    | _ => none

/-- Parse the attribute list of a start tag, stopping in front of `>` or `/>`. -/
def parseAttrs : Nat → List Char → Option (List (String × String) × List Char)
  | 0, _ => none
  | Nat.succ fuel, input =>
    match skipWs input with
    | [] => none
    | '>' :: rest => some ([], '>' :: rest)
    | '/' :: rest => some ([], '/' :: rest)
    | c :: rest =>
      match takeName (c :: rest) with
      | ([], _) => none
      | (n :: ns, afterName) =>
        match skipWs afterName with
        | '=' :: afterEq =>
          match skipWs afterEq with
          | q :: afterQ =>
            if q = '"' || q = '\'' then
              match takeAttrValue q afterQ with
              | none => none
              | some (v, afterV) =>
                match parseAttrs fuel afterV with
                | none => none
                | some (attrs, rest2) =>
                  some ((String.mk (n :: ns), String.mk v) :: attrs, rest2)
            else none
          | _ => none
        | _ => none

/-- Parse the children (and discarded tail texts) of an open element up to and
including its matching close tag. -/
def parseContent : Nat → String → List Char → Option (List XElem × List Char)
  | 0, _, _ => none
  | Nat.succ fuel, closeTag, input =>
    match input with
    | '<' :: '/' :: rest =>
      match takeName rest with
      | (n, afterName) =>
        match skipWs afterName with
        | '>' :: rest2 => if String.mk n = closeTag then some ([], rest2) else none
        | _ => none
    | '<' :: rest =>
      match parseElement fuel ('<' :: rest) with
      | none => none
      | some (child, rest1) =>
        match takeText rest1 with
        | none => none
        | some (_, rest2) =>
          match parseContent fuel closeTag rest2 with
          | none => none
          | some (siblings, rest3) => some (child :: siblings, rest3)
    | _ => none

end

/-- Model of `ET.fromstring`: parse a complete document consisting of a single
root element (possibly followed by whitespace).  `none` is a `ParseError`. -/
def fromstring (s : String) : Option XElem :=
  match parseElement (s.length + 1) s.data with
  | some (e, rest) => if skipWs rest = [] then some e else none
  | none => none

/-! ## String replacement and `get_description_root` -/

/-- Worker of `replaceList`; the fuel is an upper bound on the number of scan
steps and is instantiated with the input length, which always suffices because
every step either consumes at least one character or ends the scan. -/
def replaceListF (pat rep : List Char) : Nat → List Char → List Char
  | _, [] => []
  | 0, l => l
  | Nat.succ fuel, c :: rest =>
    if pat ≠ [] ∧ pat.isPrefixOf (c :: rest) then
      rep ++ replaceListF pat rep fuel (rest.drop (pat.length - 1))
    else
      c :: replaceListF pat rep fuel rest

/-- Model of Python `str.replace`: replace every occurrence of `pat` by `rep`,
scanning left to right without overlap.  The patterns used by the script are
all non-empty; an empty pattern is returned unchanged. -/
def replaceList (pat rep l : List Char) : List Char :=
  replaceListF pat rep l.length l

/-- The `.replace` chain of `get_description_root` (line 32 of the script):
unescape `&lt;` and `&gt;`, then delete every occurrence of `" & "`. -/
def descReplace (s : String) : String :=
  String.mk (replaceList " & ".data []
    (replaceList "&gt;".data ">".data
      (replaceList "&lt;".data "<".data s.data)))

/-- Model of `get_description_root`: wrap the (unescaped) text of the
`description` child in a `root` element and parse it as XML.
`Err.attrError` is the `AttributeError` raised when `find` returns `None`,
`Err.typeError` the `TypeError` of concatenating `None` into a string, and
`Err.parseError` an `ET.ParseError` of the inner parse. -/
def get_description_root (srg : XElem) : Except Err XElem :=
  match find srg "xccdf-1.1:description" with
  | none => .error .attrError
  | some d =>
    match d.text with
    | none => .error .typeError
    | some t =>
      match fromstring ("<root>" ++ descReplace t ++ "</root>") with
      | none => .error .parseError
      | some root => .ok root

/-! ## SRG extraction (`get_srg_dict`) -/

/-- The `SEVERITY` table of the script. -/
def SEVERITY : List (String × String) :=
  [("low", "CAT III"), ("medium", "CAT II"), ("high", "CAT I")]

/-- One value of the mapping built by `get_srg_dict`.  Fields that come from
`Element.text` keep the `Option` because ElementTree reports an empty element
text as `None` and the script stores that value unchanged. -/
structure SrgEntry where
  severity : String
  title : Option String
  vuln_discussion : Option String
  cci : Option String
  fix : Option String
  check : Option String
  ia_controls : Option String
  deriving DecidableEq, Repr

/-- The mapping built by `get_srg_dict`.  The key is `version.text`, which a
degenerate manual can make `None`; Python happily uses `None` as a dict key. -/
abbrev SrgDict : Type := List (Option String × SrgEntry)

/-- Python dict assignment `d[k] = v`: replace the value in place when the key
exists, append otherwise. -/
def dictInsert (d : SrgDict) (k : Option String) (v : SrgEntry) : SrgDict :=
  match d with
  | [] => [(k, v)]
  | (k', v') :: rest =>
    if k' = k then (k, v) :: rest else (k', v') :: dictInsert rest k v

/-- Python dict lookup `d[k]` (the `some` case; `none` is a `KeyError`). -/
def dictFind (d : SrgDict) (k : Option String) : Option SrgEntry :=
  match d with
  | [] => none
  | (k', v) :: rest => if k' = k then some v else dictFind rest k

/-- The body of the inner loop of `get_srg_dict` (lines 47 to 57): build the
entry of one `Rule` element.  The steps appear in the evaluation order of the
script, so error precedence is preserved. -/
def srgEntryOf (srg : XElem) : Except Err (Option String × SrgEntry) :=
  match find srg "xccdf-1.1:version" with
  | none => .error .attrError
  | some versionEl =>
    match (attrGet srg "severity").bind (alookup SEVERITY) with
    | none => .error (.keyError "severity not in SEVERITY")
    | some severity =>
      match find srg "xccdf-1.1:title" with
      | none => .error .attrError
      | some titleEl =>
        match get_description_root srg with
        | .error e => .error e
        | .ok descRoot =>
          match find descRoot "VulnDiscussion" with
          | none => .error .attrError
          | some vulnEl =>
            match findIdentCci srg with
            | none => .error .attrError
            | some identEl =>
              match find srg "xccdf-1.1:fix" with
              | none => .error .attrError
              | some fixEl =>
                match find srg "xccdf-1.1:description" with
                | none => .error .attrError
                | some checkEl =>
                  match find descRoot "IAControls" with
                  | none => .error .attrError
                  | some iaEl =>
                    .ok (versionEl.text,
                      { severity := severity
                        title := titleEl.text
                        vuln_discussion := vulnEl.text
                        cci := identEl.text
                        fix := fixEl.text
                        check := checkEl.text
                        ia_controls := iaEl.text })

/-- The inner `for srg in group.findall(...)` loop of `get_srg_dict`. -/
def addRules (srgs : SrgDict) : List XElem → Except Err SrgDict
  | [] => .ok srgs
  | srg :: rest =>
    match srgEntryOf srg with
    | .error e => .error e
    | .ok (k, v) => addRules (dictInsert srgs k v) rest

/-- The outer `for group in root.findall(...)` loop of `get_srg_dict`. -/
def addGroups (srgs : SrgDict) : List XElem → Except Err SrgDict
  | [] => .ok srgs
  | g :: rest =>
    match addRules srgs (findall g "xccdf-1.1:Rule") with
    | .error e => .error e
    | .ok s => addGroups s rest

/-- The dictionary-building part of `get_srg_dict` (lines 43 to 58), applied to
the already parsed root element of the manual. -/
def get_srg_dict_root (root : XElem) : Except Err SrgDict :=
  addGroups [] (findall root "xccdf-1.1:Group")

/-! ## Paths, the environment and the collaborators of `main`

`pathlib` path arithmetic is modelled on plain strings with POSIX semantics:
`joinpath` discards the left operand when the right one is absolute, and
`Path.absolute()` prefixes the current working directory without normalizing
`..` components. -/

/-- A POSIX path is absolute when it starts with a slash. -/
def isAbsolute (p : String) : Bool := p.data.head? = some '/'

/-- Model of `pathlib.Path.joinpath`. -/
def pathJoin (a b : String) : String :=
  if isAbsolute b then b else a ++ "/" ++ b

/-- Model of `pathlib.Path.absolute()`: prefix the current working directory;
no `..` normalization happens. -/
def pathAbsolute (cwd p : String) : String :=
  if isAbsolute p then p else cwd ++ "/" ++ p

/-- The control path computed on lines 93 and 94 of the script:
`Path.joinpath(Path(".."), Path(args.control)).absolute()`. -/
def controlFullPath (cwd control : String) : String :=
  pathAbsolute cwd (pathJoin ".." control)

/-- Modelled from the spec: a control of the control file.  Reference section 3
of the spec describes a control as an identifier plus an ordered list of
selected rule identifiers (the class `ssg.controls.Control` is not part of the
sources under review). -/
structure ControlItem where
  id : String
  selections : List String

/-- The control file contents as returned by `ssg.yaml.open_raw`: the script
only reads the key `controls`, whose absence would be a `KeyError` at the head
of the row loop. -/
structure ControlDoc where
  controls : Option (List ControlItem)

/-- Modelled from the spec: `ssg.controls.Control.from_control_dict` builds the
control object whose `selections` list the script iterates (section 3 of the
spec; the class itself is not part of the sources under review). -/
def from_control_dict (item : ControlItem) : ControlItem := item

/-- Modelled from the spec: the normalized rule object returned by the external
rule-model library; the script only reads its `ocil` field (section 4.3 of the
spec: it exposes a check/fix description field). -/
structure RuleObj where
  ocil : Option String

/-- Modelled from the spec: the opaque environment configuration produced by
`ssg.environment.open_environment` and passed through to the rule loader. -/
structure EnvYaml where
  vals : List (String × String)

/-- The parsed contents of the rules index JSON: rule id to a dict that should
carry a `dir` key (spec section 6). -/
abbrev RuleJson : Type := List (String × List (String × String))

/-- The environment bundles every effectful collaborator of the script:
file-system probes, the standard-library XML file parser, and the black-box
`ssg` library calls (spec sections 4.2 and 4.3 treat the latter as opaque
collaborators). -/
structure Env where
  cwd : String
  fileExists : String → Bool
  parseXmlFile : String → Except Err XElem
  open_raw : String → Except Err ControlDoc
  readJson : String → Except Err RuleJson
  open_environment : String → String → Except Err EnvYaml
  get_rule_dir_yaml : String → Except Err String
  rule_from_yaml : String → EnvYaml → Except Err RuleObj
  normalize : String → RuleObj → Except Err RuleObj

/-- Failure modes of `get_srg_dict`: the explicit `stderr` + `exit(1)` path for
a missing manual, or a propagating exception. -/
inductive SrgFail where
  | exit1 (msg : String)
  | err (e : Err)
  deriving DecidableEq, Repr

/-- Model of `get_srg_dict` (lines 39 to 58): existence check with
`stderr` + `exit(1)` on a missing file, then `ET.parse`, then the extraction
loops. -/
def get_srg_dict (xml_path : String) (env : Env) : Except SrgFail SrgDict :=
  if ¬ env.fileExists xml_path then
    .error (.exit1 "XML for SRG was not found\n")
  else
    match env.parseXmlFile xml_path with
    | .error e => .error (.err e)
    | .ok root =>
      match get_srg_dict_root root with
      | .error e => .error (.err e)
      | .ok srgs => .ok srgs

/-- Model of `handle_rule_yaml` (lines 61 to 67), with the three `ssg` library
steps supplied by the environment. -/
def handle_rule_yaml (env : Env) (product : String) (rule_dir : String)
    (env_yaml : EnvYaml) : Except Err RuleObj :=
  match env.get_rule_dir_yaml rule_dir with
  | .error e => .error e
  | .ok rule_file =>
    match env.rule_from_yaml rule_file env_yaml with
    | .error e => .error e
    | .ok rule_yaml => env.normalize product rule_yaml

/-! ## The CSV layer and `main`

A written CSV row is modelled as the list of its 15 cell strings, in header
order.  `csv.DictWriter.writerow` fills headers missing from the row dict with
the `restval` default (the empty string), writes a `None` value as the empty
string, and raises a `ValueError` on a key that is not a header. -/

/-- The fixed header list of `setup_csv_writer` (lines 132 to 134). -/
def headers : List String :=
  ["IA Control", "CCI", "SRGID", "SRG Requirement", "SRG VulDiscussion",
   "VulDiscussion", "Status", "SRG Check", "Check", "SRG Fix", "Fix",
   "Severity", "Mitigation", "Artifact Description", "Status Justification"]

/-- A row dict as built by the loop body of `main`: header name to cell value,
where a `none` value is Python `None`. -/
abbrev RowDict : Type := List (String × Option String)

/-- Render a row dict into the 15 cells, in header order, with the
`csv.DictWriter` conventions for missing keys and `None` values. -/
def renderRow (row : RowDict) : List String :=
  headers.map (fun h =>
    match alookup row h with
    | some (some v) => v
    | some none => ""
    | none => "")

/-- Model of `csv.DictWriter.writerow`: the `ValueError` check on keys outside
the field names, then the rendered cells. -/
def writerow (row : RowDict) : Except Err (List String) :=
  if row.all (fun p => headers.contains p.1) then .ok (renderRow row) else .error .valueError

/-- The cell of a rendered row under a given header name. -/
def getCell (hname : String) (row : List String) : String :=
  (alookup (headers.zip row) hname).getD ""

/-- The row dict assembled on lines 114 to 126 for one (control, selection)
pair, in the insertion order of the script. -/
def rowDictOf (srg_id : String) (srg : SrgEntry) (ocil : Option String) : RowDict :=
  [("SRGID", some srg_id),
   ("CCI", srg.cci),
   ("SRG Requirement", srg.title),
   ("SRG VulDiscussion", srg.vuln_discussion),
   ("SRG Check", srg.check),
   ("SRG Fix", srg.fix),
   ("Severity", some srg.severity),
   ("IA Control", srg.ia_controls),
   ("Fix", ocil)]

/-- The loop body for one selection (lines 114 to 127): the two dict lookups,
the rule resolution, and the row write, in the evaluation order of the
script. -/
def buildRow (env : Env) (product : String) (env_yaml : EnvYaml) (srgs : SrgDict)
    (rule_json : RuleJson) (item : ControlItem) (rule : String) :
    Except Err (List String) :=
  match dictFind srgs (some item.id) with
  | none => .error (.keyError item.id)
  | some srg =>
    match alookup rule_json rule with
    | none => .error (.keyError rule)
    | some entry =>
      match alookup entry "dir" with
      | none => .error (.keyError "dir")
      | some dir =>
        match handle_rule_yaml env product dir env_yaml with
        | .error e => .error e
        | .ok rule_object => writerow (rowDictOf item.id srg rule_object.ocil)

/-- The inner `for rule in control.selections` loop: rows written so far are
threaded through, and an exception stops the loop with those rows on disk. -/
def processSelections (env : Env) (product : String) (env_yaml : EnvYaml)
    (srgs : SrgDict) (rule_json : RuleJson) (item : ControlItem)
    (written : List (List String)) :
    List String → List (List String) × Option Err
  | [] => (written, none)
  | rule :: rest =>
    match buildRow env product env_yaml srgs rule_json item rule with
    | .error e => (written, some e)
    | .ok cells => processSelections env product env_yaml srgs rule_json item
        (written ++ [cells]) rest

/-- The outer `for item in control_yaml['controls']` loop. -/
def processControls (env : Env) (product : String) (env_yaml : EnvYaml)
    (srgs : SrgDict) (rule_json : RuleJson)
    (written : List (List String)) :
    List ControlItem → List (List String) × Option Err
  | [] => (written, none)
  | item :: rest =>
    match processSelections env product env_yaml srgs rule_json item written
        (from_control_dict item).selections with
    | (w, some e) => (w, some e)
    | (w, none) => processControls env product env_yaml srgs rule_json w rest

/-- The command-line arguments of the script (all have string values). -/
structure Args where
  control : String
  output : String
  root : String
  json : String
  product : String
  build_config_yaml : String
  manual : String

/-- How a run ends: normal completion, a clean `exit(code)`, or an unhandled
exception (abnormal termination with a stack trace). -/
inductive Outcome where
  | success
  | cleanExit (code : Nat)
  | crash (e : Err)
  deriving DecidableEq, Repr

/-- The observable result of a run: the stderr lines, the contents of the
output CSV (`none` when the file was never created, otherwise the written rows
with the header row first), the way the run ended, and the paths passed to
`ssg.yaml.open_raw`. -/
structure RunResult where
  stderr : List String
  csv : Option (List (List String))
  outcome : Outcome
  rawOpens : List String
  deriving DecidableEq, Repr

/-- Model of `main` (lines 90 to 128), following the statement order of the
script: control existence check, `get_srg_dict` on the manual, control file
read, rules index read, output file creation with the header row, environment
resolution, then the row loop.  The closing `print` to stdout is not an
observable the claims mention and is not modelled. -/
def main (args : Args) (env : Env) : RunResult :=
  let control_full_path := controlFullPath env.cwd args.control
  if ¬ env.fileExists control_full_path then
    { stderr := ["Unable to find control file " ++ control_full_path ++ "\n"]
      csv := none
      outcome := .cleanExit 1
      rawOpens := [] }
  else
    match get_srg_dict args.manual env with
    | .error (.exit1 msg) =>
      { stderr := [msg], csv := none, outcome := .cleanExit 1, rawOpens := [] }
    | .error (.err e) =>
      { stderr := [], csv := none, outcome := .crash e, rawOpens := [] }
    | .ok srgs =>
      match env.open_raw control_full_path with
      | .error e =>
        { stderr := [], csv := none, outcome := .crash e,
          rawOpens := [control_full_path] }
      | .ok control_yaml =>
        match env.readJson args.json with
        | .error e =>
          { stderr := [], csv := none, outcome := .crash e,
            rawOpens := [control_full_path] }
        | .ok rule_json =>
          -- the output file is created here; from this point the CSV exists
          -- and already carries the header row written by `setup_csv_writer`
          let product_yaml_path := args.root ++ "/products/" ++ args.product ++ "/product.yml"
          match env.open_environment args.build_config_yaml product_yaml_path with
          | .error e =>
            { stderr := [], csv := some [headers], outcome := .crash e,
              rawOpens := [control_full_path] }
          | .ok env_yaml =>
            match control_yaml.controls with
            | none =>
              { stderr := [], csv := some [headers],
                outcome := .crash (.keyError "controls"),
                rawOpens := [control_full_path] }
            | some items =>
              match processControls env args.product env_yaml srgs rule_json [] items with
              | (rows, some e) =>
                { stderr := [], csv := some (headers :: rows), outcome := .crash e,
                  rawOpens := [control_full_path] }
              | (rows, none) =>
                { stderr := [], csv := some (headers :: rows), outcome := .success,
                  rawOpens := [control_full_path] }

/-! ## Concrete fixtures

A small valid manual (one Group, one Rule, severity `medium`, an escaped
`VulnDiscussion` of "Example text"), a variant whose embedded VulnDiscussion
text contains `" & "`, and an environment for complete runs of `main`. -/

/-- A Rule element of the manual, as `ET.parse` would deliver it: the
`description` text carries the embedded sub-document as literal markup. -/
def exRule : XElem :=
  .mk "xccdf-1.1:Rule" [("severity", "medium")] none
    [ .mk "xccdf-1.1:version" [] (some "SRG-OS-000001") []
    , .mk "xccdf-1.1:title" [] (some "Example title") []
    , .mk "xccdf-1.1:description" []
        (some "<VulnDiscussion>Example text</VulnDiscussion><IAControls>x</IAControls>") []
    , .mk "xccdf-1.1:ident" [("system", "http://cyber.mil/cci")] (some "CCI-000001") []
    , .mk "xccdf-1.1:fix" [] (some "Example fix") []
    ]

/-- A one-group, one-rule manual around `exRule`. -/
def exManual : XElem :=
  .mk "xccdf-1.1:Benchmark" [] none
    [ .mk "xccdf-1.1:Group" [] none [exRule] ]

/-- Like `exRule`, but the embedded VulnDiscussion text is "A & B": the source
sub-document text contains a `" & "` sequence. -/
def cexRule : XElem :=
  .mk "xccdf-1.1:Rule" [("severity", "medium")] none
    [ .mk "xccdf-1.1:version" [] (some "SRG-OS-000001") []
    , .mk "xccdf-1.1:title" [] (some "Example title") []
    , .mk "xccdf-1.1:description" []
        (some "<VulnDiscussion>A & B</VulnDiscussion><IAControls>x</IAControls>") []
    , .mk "xccdf-1.1:ident" [("system", "http://cyber.mil/cci")] (some "CCI-000001") []
    , .mk "xccdf-1.1:fix" [] (some "Example fix") []
    ]

/-- A one-group, one-rule manual around `cexRule`. -/
def cexManual : XElem :=
  .mk "xccdf-1.1:Benchmark" [] none
    [ .mk "xccdf-1.1:Group" [] none [cexRule] ]

/-- Arguments of the concrete runs: a relative control path. -/
def argsRun : Args :=
  { control := "ctl.yml"
    output := "out.csv"
    root := "/r"
    json := "rules.json"
    product := "prod"
    build_config_yaml := "bc.yml"
    manual := "manual.xml" }

/-- A concrete environment: the working directory is `/w`, the control file
exists at the joined path `/w/../ctl.yml` but not at `/w/ctl.yml`, and the
`ssg` collaborators all succeed.  The manual tree, whether the manual file
exists, and the control list are parameters. -/
def mkEnv (manual : XElem) (manualExists : Bool) (items : List ControlItem) : Env :=
  { cwd := "/w"
    fileExists := fun p => p = "/w/../ctl.yml" || (manualExists && p = "manual.xml")
    parseXmlFile := fun p =>
      if p = "manual.xml" then .ok manual else .error (.ioError p)
    open_raw := fun p =>
      if p = "/w/../ctl.yml" then .ok { controls := some items } else .error (.ioError p)
    readJson := fun _ => .ok [("rule_a", [("dir", "/dir/rule_a")])]
    open_environment := fun _ _ => .ok { vals := [] }
    get_rule_dir_yaml := fun d => .ok (d ++ "/rule.yml")
    rule_from_yaml := fun _ _ => .ok { ocil := some "ocil text" }
    normalize := fun _ r => .ok r }

/-- The single control of the concrete runs, selecting one rule. -/
def exItems : List ControlItem := [{ id := "SRG-OS-000001", selections := ["rule_a"] }]

/-- Environment of the valid-manual run. -/
def envEx : Env := mkEnv exManual true exItems

/-- Environment of the `" & "` counterexample run. -/
def envCex : Env := mkEnv cexManual true exItems

/-- Environment with an empty control list (used to exhibit a run that passes
the control check although the control path as given does not exist). -/
def envEmpty : Env := mkEnv exManual true []

/-- Environment whose manual file does not exist. -/
def envNoManual : Env := mkEnv exManual false exItems

/-- Environment where the joined control path does not exist either. -/
def envNoControl : Env := { envEx with fileExists := fun p => p = "manual.xml" }

/-- Environment whose single control id is absent from the SRG mapping. -/
def envBadId : Env := mkEnv exManual true [{ id := "SRG-OS-000999", selections := ["rule_a"] }]

/-- Environment whose single control selects a resolvable rule first and then
a rule id that is absent from the rules index. -/
def envBadRule : Env :=
  mkEnv exManual true [{ id := "SRG-OS-000001", selections := ["rule_a", "rule_missing"] }]

/-- The SRG entry extracted from `exRule`. -/
def exEntry : SrgEntry :=
  { severity := "CAT II"
    title := some "Example title"
    vuln_discussion := some "Example text"
    cci := some "CCI-000001"
    fix := some "Example fix"
    check := some "<VulnDiscussion>Example text</VulnDiscussion><IAControls>x</IAControls>"
    ia_controls := some "x" }

/-- The SRG entry extracted from `cexRule`: the vulnerability discussion has
lost the `" & "`. -/
def cexEntry : SrgEntry :=
  { severity := "CAT II"
    title := some "Example title"
    vuln_discussion := some "AB"
    cci := some "CCI-000001"
    fix := some "Example fix"
    check := some "<VulnDiscussion>A & B</VulnDiscussion><IAControls>x</IAControls>"
    ia_controls := some "x" }

/-- The rendered data row of the concrete valid-manual run. -/
def exRowCells : List String :=
  renderRow (rowDictOf "SRG-OS-000001" exEntry (some "ocil text"))

/-! ## The canonical embedded description document

The real SRG descriptions embed, as escaped markup in the description text, a
flat sub-document whose elements include `VulnDiscussion` and `IAControls`.
`descrText t u` is that text for a VulnDiscussion content `t` and an
IAControls content `u`; the definitions below name the intermediate character
streams and the parsed elements of its two-stage parse. -/

/-- Description text embedding a VulnDiscussion of text `t` and an IAControls
of text `u`. -/
def descrText (t u : String) : String :=
  "<VulnDiscussion>" ++ t ++ "</VulnDiscussion><IAControls>" ++ u ++ "</IAControls>"

/-- Input remainder after the IAControls content. -/
def restU : List Char := "</IAControls>".data ++ "</root>".data

/-- Input remainder after the VulnDiscussion content. -/
def restT (u : String) : List Char :=
  "</VulnDiscussion><IAControls>".data ++ (u.data ++ restU)

/-- Input remainder after the closed VulnDiscussion element. -/
def restV (u : String) : List Char :=
  "<IAControls>".data ++ (u.data ++ restU)

/-- Parser input starting at the VulnDiscussion element. -/
def inputV (t u : String) : List Char :=
  "<VulnDiscussion>".data ++ (t.data ++ restT u)

/-- The whole wrapped document as a character stream. -/
def inputFull (t u : String) : List Char := "<root>".data ++ inputV t u

/-- The parsed VulnDiscussion element. -/
def elemV (t : String) : XElem := .mk "VulnDiscussion" [] (optText t.data) []

/-- The parsed IAControls element. -/
def elemI (u : String) : XElem := .mk "IAControls" [] (optText u.data) []

/-- The parsed wrapper element returned by `get_description_root`. -/
def descrRoot (t u : String) : XElem := .mk "root" [] none [elemV t, elemI u]

/-! ## Cell-level lemmas about the rendered rows -/

theorem renderRow_rowDictOf (id : String) (e : SrgEntry) (oc : Option String) :
    renderRow (rowDictOf id e oc) =
      [e.ia_controls.getD "", e.cci.getD "", id, e.title.getD "",
       e.vuln_discussion.getD "", "", "", e.check.getD "", "", e.fix.getD "",
       oc.getD "", e.severity, "", "", ""] := by
  obtain ⟨sev, ti, vd, cci, fx, ck, ia⟩ := e
  cases ti <;> cases vd <;> cases cci <;> cases fx <;> cases ck <;> cases ia <;>
    cases oc <;> rfl

theorem writerow_rowDictOf (id : String) (e : SrgEntry) (oc : Option String) :
    writerow (rowDictOf id e oc) = .ok (renderRow (rowDictOf id e oc)) := rfl

theorem getCell_renderRow_SRGID (id : String) (e : SrgEntry) (oc : Option String) :
    getCell "SRGID" (renderRow (rowDictOf id e oc)) = id := by
  rw [renderRow_rowDictOf]; rfl

/-! ## Inversion of `srgEntryOf` -/

/-- Success of `srgEntryOf` determines every field of the produced entry from
the corresponding XML query of the script. -/
theorem srgEntryOf_ok_inv (srg : XElem) (k : Option String) (e : SrgEntry)
    (h : srgEntryOf srg = .ok (k, e)) :
    (∃ versionEl, find srg "xccdf-1.1:version" = some versionEl ∧ k = versionEl.text) ∧
    (∃ a, attrGet srg "severity" = some a ∧ alookup SEVERITY a = some e.severity) ∧
    (∃ titleEl, find srg "xccdf-1.1:title" = some titleEl ∧ e.title = titleEl.text) ∧
    (∃ descRoot, get_description_root srg = .ok descRoot ∧
      (∃ vulnEl, find descRoot "VulnDiscussion" = some vulnEl ∧
        e.vuln_discussion = vulnEl.text) ∧
      (∃ iaEl, find descRoot "IAControls" = some iaEl ∧ e.ia_controls = iaEl.text)) ∧
    (∃ identEl, findIdentCci srg = some identEl ∧ e.cci = identEl.text) ∧
    (∃ fixEl, find srg "xccdf-1.1:fix" = some fixEl ∧ e.fix = fixEl.text) ∧
    (∃ checkEl, find srg "xccdf-1.1:description" = some checkEl ∧ e.check = checkEl.text) := by
  unfold srgEntryOf at h
  cases h1 : find srg "xccdf-1.1:version" with
  | none => simp only [h1] at h; exact Except.noConfusion h
  | some versionEl =>
  simp only [h1] at h
  cases h2 : (attrGet srg "severity").bind (alookup SEVERITY) with
  | none => simp only [h2] at h; exact Except.noConfusion h
  | some severity =>
  simp only [h2] at h
  cases h3 : find srg "xccdf-1.1:title" with
  | none => simp only [h3] at h; exact Except.noConfusion h
  | some titleEl =>
  simp only [h3] at h
  cases h4 : get_description_root srg with
  | error err => simp only [h4] at h; exact Except.noConfusion h
  | ok descRoot =>
  simp only [h4] at h
  cases h5 : find descRoot "VulnDiscussion" with
  | none => simp only [h5] at h; exact Except.noConfusion h
  | some vulnEl =>
  simp only [h5] at h
  cases h6 : findIdentCci srg with
  | none => simp only [h6] at h; exact Except.noConfusion h
  | some identEl =>
  simp only [h6] at h
  cases h7 : find srg "xccdf-1.1:fix" with
  | none => simp only [h7] at h; exact Except.noConfusion h
  | some fixEl =>
  simp only [h7] at h
  cases h8 : find srg "xccdf-1.1:description" with
  | none => simp only [h8] at h; exact Except.noConfusion h
  | some checkEl =>
  simp only [h8] at h
  cases h9 : find descRoot "IAControls" with
  | none => simp only [h9] at h; exact Except.noConfusion h
  | some iaEl =>
  simp only [h9] at h
  injection h with h'
  injection h' with hk he
  subst he
  subst hk
  obtain ⟨a, ha, hv⟩ := Option.bind_eq_some.mp h2
  exact ⟨⟨versionEl, rfl, rfl⟩, ⟨a, ha, hv⟩, ⟨titleEl, rfl, rfl⟩,
    ⟨descRoot, rfl, ⟨vulnEl, h5, rfl⟩, ⟨iaEl, h9, rfl⟩⟩,
    ⟨identEl, rfl, rfl⟩, ⟨fixEl, rfl, rfl⟩, ⟨checkEl, rfl, rfl⟩⟩

/-! ## The severity invariant -/

theorem alookup_SEVERITY_mem (a v : String) (h : alookup SEVERITY a = some v) :
    v = "CAT I" ∨ v = "CAT II" ∨ v = "CAT III" := by
  simp only [SEVERITY, alookup] at h
  split_ifs at h
  · exact Or.inr (Or.inr (Option.some.inj h).symm)
  · exact Or.inr (Or.inl (Option.some.inj h).symm)
  · exact Or.inl (Option.some.inj h).symm

theorem dictInsert_mem (d : SrgDict) (k : Option String) (v : SrgEntry) :
    ∀ p ∈ dictInsert d k v, p ∈ d ∨ p = (k, v) := by
  induction d with
  | nil =>
    intro p hp
    simp only [dictInsert, List.mem_singleton] at hp
    exact Or.inr hp
  | cons q rest ih =>
    intro p hp
    unfold dictInsert at hp
    split at hp
    · rcases List.mem_cons.mp hp with hq | hrest
      · exact Or.inr hq
      · exact Or.inl (List.mem_cons_of_mem q hrest)
    · rcases List.mem_cons.mp hp with hq | hrest
      · exact Or.inl (hq ▸ List.mem_cons_self q rest)
      · rcases ih p hrest with hin | hkv
        · exact Or.inl (List.mem_cons_of_mem q hin)
        · exact Or.inr hkv

theorem addRules_inv (P : SrgEntry → Prop)
    (hP : ∀ srg k e, srgEntryOf srg = .ok (k, e) → P e) :
    ∀ (rules : List XElem) (srgs srgs' : SrgDict),
      (∀ p ∈ srgs, P p.2) → addRules srgs rules = .ok srgs' →
      ∀ p ∈ srgs', P p.2 := by
  intro rules
  induction rules with
  | nil =>
    intro srgs srgs' hs h
    unfold addRules at h
    injection h with h'
    exact h' ▸ hs
  | cons srg rest ih =>
    intro srgs srgs' hs h
    unfold addRules at h
    cases hE : srgEntryOf srg with
    | error err => simp only [hE] at h; exact Except.noConfusion h
    | ok kv =>
      obtain ⟨k, v⟩ := kv
      simp only [hE] at h
      refine ih _ _ ?_ h
      intro p hp
      rcases dictInsert_mem srgs k v p hp with hin | hkv
      · exact hs p hin
      · exact hkv ▸ hP srg k v hE

theorem addGroups_inv (P : SrgEntry → Prop)
    (hP : ∀ srg k e, srgEntryOf srg = .ok (k, e) → P e) :
    ∀ (groups : List XElem) (srgs srgs' : SrgDict),
      (∀ p ∈ srgs, P p.2) → addGroups srgs groups = .ok srgs' →
      ∀ p ∈ srgs', P p.2 := by
  intro groups
  induction groups with
  | nil =>
    intro srgs srgs' hs h
    unfold addGroups at h
    injection h with h'
    exact h' ▸ hs
  | cons g rest ih =>
    intro srgs srgs' hs h
    unfold addGroups at h
    cases hR : addRules srgs (findall g "xccdf-1.1:Rule") with
    | error err => simp only [hR] at h; exact Except.noConfusion h
    | ok s =>
      simp only [hR] at h
      exact ih s srgs' (addRules_inv P hP _ srgs s hs hR) h

theorem get_srg_dict_ok_inv (xml_path : String) (env : Env) (srgs : SrgDict)
    (h : get_srg_dict xml_path env = .ok srgs) :
    ∃ root, env.parseXmlFile xml_path = .ok root ∧
      get_srg_dict_root root = .ok srgs := by
  unfold get_srg_dict at h
  split at h
  · exact Except.noConfusion h
  · cases hp : env.parseXmlFile xml_path with
    | error e => simp only [hp] at h; exact Except.noConfusion h
    | ok root =>
      simp only [hp] at h
      cases hg : get_srg_dict_root root with
      | error e => simp only [hg] at h; exact Except.noConfusion h
      | ok s =>
        simp only [hg] at h
        injection h with h'
        exact ⟨root, rfl, h' ▸ hg⟩

/-! ## Row-loop lemmas -/

theorem processSelections_nil (env : Env) (product : String) (ey : EnvYaml)
    (srgs : SrgDict) (rj : RuleJson) (item : ControlItem) (written : List (List String)) :
    processSelections env product ey srgs rj item written [] = (written, none) := rfl

theorem processSelections_cons_err (env : Env) (product : String) (ey : EnvYaml)
    (srgs : SrgDict) (rj : RuleJson) (item : ControlItem) (written : List (List String))
    (r : String) (rest : List String) (e : Err)
    (hb : buildRow env product ey srgs rj item r = .error e) :
    processSelections env product ey srgs rj item written (r :: rest) =
      (written, some e) := by
  simp only [processSelections, hb]

theorem processSelections_cons_ok (env : Env) (product : String) (ey : EnvYaml)
    (srgs : SrgDict) (rj : RuleJson) (item : ControlItem) (written : List (List String))
    (r : String) (rest : List String) (cells : List String)
    (hb : buildRow env product ey srgs rj item r = .ok cells) :
    processSelections env product ey srgs rj item written (r :: rest) =
      processSelections env product ey srgs rj item (written ++ [cells]) rest := by
  simp only [processSelections, hb]

theorem processControls_nil (env : Env) (product : String) (ey : EnvYaml)
    (srgs : SrgDict) (rj : RuleJson) (written : List (List String)) :
    processControls env product ey srgs rj written [] = (written, none) := rfl

theorem processControls_cons_err (env : Env) (product : String) (ey : EnvYaml)
    (srgs : SrgDict) (rj : RuleJson) (item : ControlItem) (rest : List ControlItem)
    (written w1 : List (List String)) (e : Err)
    (hps : processSelections env product ey srgs rj item written
      (from_control_dict item).selections = (w1, some e)) :
    processControls env product ey srgs rj written (item :: rest) = (w1, some e) := by
  simp only [processControls, hps]

theorem processControls_cons_ok (env : Env) (product : String) (ey : EnvYaml)
    (srgs : SrgDict) (rj : RuleJson) (item : ControlItem) (rest : List ControlItem)
    (written w1 : List (List String))
    (hps : processSelections env product ey srgs rj item written
      (from_control_dict item).selections = (w1, none)) :
    processControls env product ey srgs rj written (item :: rest) =
      processControls env product ey srgs rj w1 rest := by
  simp only [processControls, hps]

theorem buildRow_ok_shape (env : Env) (product : String) (ey : EnvYaml)
    (srgs : SrgDict) (rj : RuleJson) (item : ControlItem) (r : String)
    (cells : List String)
    (h : buildRow env product ey srgs rj item r = .ok cells) :
    ∃ e oc, cells = renderRow (rowDictOf item.id e oc) := by
  unfold buildRow at h
  cases h1 : dictFind srgs (some item.id) with
  | none => simp only [h1] at h; exact Except.noConfusion h
  | some srg =>
  simp only [h1] at h
  cases h2 : alookup rj r with
  | none => simp only [h2] at h; exact Except.noConfusion h
  | some entry =>
  simp only [h2] at h
  cases h3 : alookup entry "dir" with
  | none => simp only [h3] at h; exact Except.noConfusion h
  | some dir =>
  simp only [h3] at h
  cases h4 : handle_rule_yaml env product dir ey with
  | error e => simp only [h4] at h; exact Except.noConfusion h
  | ok ro =>
  simp only [h4] at h
  rw [writerow_rowDictOf] at h
  injection h with h2
  exact ⟨srg, ro.ocil, h2.symm⟩

theorem buildRow_eq_ok (env : Env) (product : String) (ey : EnvYaml)
    (srgs : SrgDict) (rj : RuleJson) (item : ControlItem) (r : String)
    (srg : SrgEntry) (entry : List (String × String)) (dir : String) (ro : RuleObj)
    (h1 : dictFind srgs (some item.id) = some srg)
    (h2 : alookup rj r = some entry)
    (h3 : alookup entry "dir" = some dir)
    (h4 : handle_rule_yaml env product dir ey = .ok ro) :
    buildRow env product ey srgs rj item r =
      .ok (renderRow (rowDictOf item.id srg ro.ocil)) := by
  unfold buildRow
  simp only [h1, h2, h3, h4]
  exact writerow_rowDictOf _ _ _

theorem handle_rule_yaml_ok (env : Env) (product dir : String) (ey : EnvYaml)
    (hg : ∀ d, ∃ s, env.get_rule_dir_yaml d = .ok s)
    (hr : ∀ f y, ∃ ro, env.rule_from_yaml f y = .ok ro)
    (hn : ∀ p ro, ∃ ro2, env.normalize p ro = .ok ro2) :
    ∃ ro, handle_rule_yaml env product dir ey = .ok ro := by
  obtain ⟨s, hs⟩ := hg dir
  obtain ⟨r1, hr1⟩ := hr s ey
  obtain ⟨r2, hr2⟩ := hn product r1
  exact ⟨r2, by unfold handle_rule_yaml; simp only [hs, hr1, hr2]⟩

theorem processSelections_ok (env : Env) (product : String) (ey : EnvYaml)
    (srgs : SrgDict) (rj : RuleJson) (item : ControlItem) :
    ∀ (sel : List String) (written : List (List String)),
      (∀ r ∈ sel, ∃ cells, buildRow env product ey srgs rj item r = .ok cells) →
      ∃ newRows,
        processSelections env product ey srgs rj item written sel =
          (written ++ newRows, none) ∧
        newRows.length = sel.length ∧
        newRows.map (getCell "SRGID") = sel.map (fun _ => item.id) := by
  intro sel
  induction sel with
  | nil =>
    intro written _
    exact ⟨[], by simp [processSelections_nil], rfl, rfl⟩
  | cons r rest ih =>
    intro written hall
    obtain ⟨cells, hc⟩ := hall r (List.mem_cons_self r rest)
    obtain ⟨e, oc, hshape⟩ := buildRow_ok_shape env product ey srgs rj item r cells hc
    obtain ⟨newRows, hrec, hlen, hmap⟩ :=
      ih (written ++ [cells]) (fun r2 h2 => hall r2 (List.mem_cons_of_mem r h2))
    refine ⟨cells :: newRows, ?_, ?_, ?_⟩
    · rw [processSelections_cons_ok env product ey srgs rj item written r rest cells hc,
        hrec]
      simp
    · simp [hlen]
    · simp only [List.map_cons, hmap, hshape, getCell_renderRow_SRGID]

theorem processControls_ok (env : Env) (product : String) (ey : EnvYaml)
    (srgs : SrgDict) (rj : RuleJson) :
    ∀ (items : List ControlItem) (written : List (List String)),
      (∀ item ∈ items, ∀ r ∈ (from_control_dict item).selections,
        ∃ cells, buildRow env product ey srgs rj item r = .ok cells) →
      ∃ newRows,
        processControls env product ey srgs rj written items =
          (written ++ newRows, none) ∧
        newRows.length =
          (items.map (fun it => (from_control_dict it).selections.length)).sum ∧
        newRows.map (getCell "SRGID") =
          items.flatMap (fun it => (from_control_dict it).selections.map (fun _ => it.id)) := by
  intro items
  induction items with
  | nil =>
    intro written _
    exact ⟨[], by simp [processControls_nil], rfl, rfl⟩
  | cons item rest ih =>
    intro written hall
    obtain ⟨rowsA, hA, hAlen, hAmap⟩ :=
      processSelections_ok env product ey srgs rj item
        (from_control_dict item).selections written
        (hall item (List.mem_cons_self item rest))
    obtain ⟨rowsB, hB, hBlen, hBmap⟩ :=
      ih (written ++ rowsA) (fun it h2 => hall it (List.mem_cons_of_mem item h2))
    refine ⟨rowsA ++ rowsB, ?_, ?_, ?_⟩
    · rw [processControls_cons_ok env product ey srgs rj item rest written
        (written ++ rowsA) hA, hB]
      simp
    · simp [hAlen, hBlen]
    · simp only [List.flatMap_cons, List.map_append, hAmap, hBmap]

theorem processSelections_mem_shape (env : Env) (product : String) (ey : EnvYaml)
    (srgs : SrgDict) (rj : RuleJson) (item : ControlItem) :
    ∀ (sel : List String) (written w : List (List String)) (oe : Option Err),
      processSelections env product ey srgs rj item written sel = (w, oe) →
      ∀ c ∈ w, c ∈ written ∨ ∃ id e oc, c = renderRow (rowDictOf id e oc) := by
  intro sel
  induction sel with
  | nil =>
    intro written w oe h c hc
    rw [processSelections_nil] at h
    cases h
    exact Or.inl hc
  | cons r rest ih =>
    intro written w oe h c hc
    cases hb : buildRow env product ey srgs rj item r with
    | error e =>
      rw [processSelections_cons_err env product ey srgs rj item written r rest e hb] at h
      cases h
      exact Or.inl hc
    | ok cells =>
      rw [processSelections_cons_ok env product ey srgs rj item written r rest cells hb] at h
      rcases ih (written ++ [cells]) w oe h c hc with hin | hshape
      · rcases List.mem_append.mp hin with h1 | h2
        · exact Or.inl h1
        · obtain ⟨e, oc, hsh⟩ :=
            buildRow_ok_shape env product ey srgs rj item r cells hb
          exact Or.inr ⟨item.id, e, oc, (List.mem_singleton.mp h2) ▸ hsh⟩
      · exact Or.inr hshape

theorem processControls_mem_shape (env : Env) (product : String) (ey : EnvYaml)
    (srgs : SrgDict) (rj : RuleJson) :
    ∀ (items : List ControlItem) (written w : List (List String)) (oe : Option Err),
      processControls env product ey srgs rj written items = (w, oe) →
      ∀ c ∈ w, c ∈ written ∨ ∃ id e oc, c = renderRow (rowDictOf id e oc) := by
  intro items
  induction items with
  | nil =>
    intro written w oe h c hc
    rw [processControls_nil] at h
    cases h
    exact Or.inl hc
  | cons item rest ih =>
    intro written w oe h c hc
    rcases hps : processSelections env product ey srgs rj item written
        (from_control_dict item).selections with ⟨w1, oe1⟩
    cases oe1 with
    | some e =>
      rw [processControls_cons_err env product ey srgs rj item rest written w1 e hps] at h
      cases h
      exact processSelections_mem_shape env product ey srgs rj item _ written _ _ hps c hc
    | none =>
      rw [processControls_cons_ok env product ey srgs rj item rest written w1 hps] at h
      rcases ih w1 w oe h c hc with hin | hshape
      · exact processSelections_mem_shape env product ey srgs rj item _ written w1 _ hps c hin
      · exact Or.inr hshape

theorem processSelections_append (env : Env) (product : String) (ey : EnvYaml)
    (srgs : SrgDict) (rj : RuleJson) (item : ControlItem) :
    ∀ (selDone : List String) (written w : List (List String)),
      processSelections env product ey srgs rj item written selDone = (w, none) →
      ∀ rest, processSelections env product ey srgs rj item written (selDone ++ rest) =
        processSelections env product ey srgs rj item w rest := by
  intro selDone
  induction selDone with
  | nil =>
    intro written w h rest
    rw [processSelections_nil] at h
    cases h
    rfl
  | cons r0 tail ih =>
    intro written w h rest
    cases hb : buildRow env product ey srgs rj item r0 with
    | error e =>
      rw [processSelections_cons_err env product ey srgs rj item written r0 tail e hb] at h
      exact absurd (congrArg Prod.snd h) (by simp)
    | ok cells =>
      rw [processSelections_cons_ok env product ey srgs rj item written r0 tail cells hb] at h
      rw [List.cons_append,
        processSelections_cons_ok env product ey srgs rj item written r0 (tail ++ rest) cells hb]
      exact ih (written ++ [cells]) w h rest

theorem processControls_append (env : Env) (product : String) (ey : EnvYaml)
    (srgs : SrgDict) (rj : RuleJson) :
    ∀ (done : List ControlItem) (written rows : List (List String)),
      processControls env product ey srgs rj written done = (rows, none) →
      ∀ rest, processControls env product ey srgs rj written (done ++ rest) =
        processControls env product ey srgs rj rows rest := by
  intro done
  induction done with
  | nil =>
    intro written rows h rest
    rw [processControls_nil] at h
    cases h
    rfl
  | cons item tail ih =>
    intro written rows h rest
    rcases hps : processSelections env product ey srgs rj item written
        (from_control_dict item).selections with ⟨w1, oe1⟩
    cases oe1 with
    | some e =>
      rw [processControls_cons_err env product ey srgs rj item tail written w1 e hps] at h
      exact absurd (congrArg Prod.snd h) (by simp)
    | none =>
      rw [processControls_cons_ok env product ey srgs rj item tail written w1 hps] at h
      rw [List.cons_append,
        processControls_cons_ok env product ey srgs rj item (tail ++ rest) written w1 hps]
      exact ih w1 rows h rest

/-! ## The shape of every `main` run -/

theorem main_shape (args : Args) (env : Env) :
    ((main args env).rawOpens = [] ∨
      (main args env).rawOpens = [controlFullPath env.cwd args.control]) ∧
    ((main args env).csv = none ∨
      ∃ rows, (main args env).csv = some (headers :: rows) ∧
        ∀ r ∈ rows, ∃ id e oc, r = renderRow (rowDictOf id e oc)) := by
  cases hf : env.fileExists (controlFullPath env.cwd args.control) with
  | false =>
    have hm : main args env =
        { stderr := ["Unable to find control file " ++
            controlFullPath env.cwd args.control ++ "\n"], csv := none,
          outcome := .cleanExit 1, rawOpens := [] } := by
      unfold main
      simp [hf]
    rw [hm]
    exact ⟨Or.inl rfl, Or.inl rfl⟩
  | true =>
    cases hs : get_srg_dict args.manual env with
    | error f =>
      cases f with
      | exit1 msg =>
        have hm : main args env =
            { stderr := [msg], csv := none, outcome := .cleanExit 1,
              rawOpens := [] } := by
          unfold main
          simp [hf, hs]
        rw [hm]
        exact ⟨Or.inl rfl, Or.inl rfl⟩
      | err e =>
        have hm : main args env =
            { stderr := [], csv := none, outcome := .crash e,
              rawOpens := [] } := by
          unfold main
          simp [hf, hs]
        rw [hm]
        exact ⟨Or.inl rfl, Or.inl rfl⟩
    | ok srgs =>
      cases hr : env.open_raw (controlFullPath env.cwd args.control) with
      | error e =>
        have hm : main args env =
            { stderr := [], csv := none, outcome := .crash e,
              rawOpens := [controlFullPath env.cwd args.control] } := by
          unfold main
          simp [hf, hs, hr]
        rw [hm]
        exact ⟨Or.inr rfl, Or.inl rfl⟩
      | ok doc =>
        cases hj : env.readJson args.json with
        | error e =>
          have hm : main args env =
              { stderr := [], csv := none, outcome := .crash e,
                rawOpens := [controlFullPath env.cwd args.control] } := by
            unfold main
            simp [hf, hs, hr, hj]
          rw [hm]
          exact ⟨Or.inr rfl, Or.inl rfl⟩
        | ok rj =>
          cases he : env.open_environment args.build_config_yaml
              (args.root ++ "/products/" ++ args.product ++ "/product.yml") with
          | error e =>
            have hm : main args env =
                { stderr := [], csv := some [headers], outcome := .crash e,
                  rawOpens := [controlFullPath env.cwd args.control] } := by
              unfold main
              simp [hf, hs, hr, hj, he]
            rw [hm]
            exact ⟨Or.inr rfl, Or.inr ⟨[], rfl, by simp⟩⟩
          | ok ey =>
            cases hcl : doc.controls with
            | none =>
              have hm : main args env =
                  { stderr := [], csv := some [headers],
                    outcome := .crash (.keyError "controls"),
                    rawOpens := [controlFullPath env.cwd args.control] } := by
                unfold main
                simp [hf, hs, hr, hj, he, hcl]
              rw [hm]
              exact ⟨Or.inr rfl, Or.inr ⟨[], rfl, by simp⟩⟩
            | some items =>
              rcases hpc : processControls env args.product ey srgs rj [] items
                with ⟨rows, oe⟩
              have hshape : ∀ c ∈ rows, ∃ id e oc, c = renderRow (rowDictOf id e oc) := by
                intro c hc
                rcases processControls_mem_shape env args.product ey srgs rj
                    items [] rows oe hpc c hc with hin | hsh
                · exact absurd hin (List.not_mem_nil c)
                · exact hsh
              cases oe with
              | some e =>
                have hm : main args env =
                    { stderr := [], csv := some (headers :: rows),
                      outcome := .crash e,
                      rawOpens := [controlFullPath env.cwd args.control] } := by
                  unfold main
                  simp [hf, hs, hr, hj, he, hcl, hpc]
                rw [hm]
                exact ⟨Or.inr rfl, Or.inr ⟨rows, rfl, hshape⟩⟩
              | none =>
                have hm : main args env =
                    { stderr := [], csv := some (headers :: rows),
                      outcome := .success,
                      rawOpens := [controlFullPath env.cwd args.control] } := by
                  unfold main
                  simp [hf, hs, hr, hj, he, hcl, hpc]
                rw [hm]
                exact ⟨Or.inr rfl, Or.inr ⟨rows, rfl, hshape⟩⟩

/-! ## Parser lemmas for the embedded description document -/

theorem takeTextF_plain (l : List Char) : ∀ (fuel : Nat) (r : List Char),
    (∀ c ∈ l, c ≠ '<' ∧ c ≠ '&') → r.head? = some '<' → l.length < fuel →
    takeTextF fuel (l ++ r) = some (l, r) := by
  induction l with
  | nil =>
    intro fuel r _ hr hfuel
    cases r with
    | nil => exact absurd hr (by simp)
    | cons c rest =>
      have hc : c = '<' := by simpa using hr
      subst hc
      cases fuel with
      | zero => omega
      | succ f => simp [takeTextF]
  | cons c l2 ih =>
    intro fuel r hl hr hfuel
    have hc := hl c (List.mem_cons_self c l2)
    cases fuel with
    | zero => simp at hfuel
    | succ f =>
      rw [List.cons_append]
      simp only [takeTextF]
      rw [if_neg hc.1, if_neg hc.2,
        ih f r (fun d hd => hl d (List.mem_cons_of_mem c hd)) hr (by
          simp only [List.length_cons] at hfuel
          omega)]
      rfl

theorem takeText_plain (l r : List Char) (hl : ∀ c ∈ l, c ≠ '<' ∧ c ≠ '&')
    (hr : r.head? = some '<') : takeText (l ++ r) = some (l, r) := by
  unfold takeText
  have hrne : 0 < r.length := by
    cases r with
    | nil => exact absurd hr (by simp)
    | cons c rest => simp
  exact takeTextF_plain l (l ++ r).length r hl hr (by simp [List.length_append]; omega)

theorem replaceListF_noop (pat rep : List Char) (hp : '&' ∈ pat) :
    ∀ (fuel : Nat) (l : List Char), '&' ∉ l → replaceListF pat rep fuel l = l := by
  intro fuel
  induction fuel with
  | zero =>
    intro l _
    cases l <;> rfl
  | succ fuel ih =>
    intro l hl
    cases l with
    | nil => rfl
    | cons c rest =>
      have hnp : ¬ (pat ≠ [] ∧ pat.isPrefixOf (c :: rest)) := by
        rintro ⟨_, hpre⟩
        exact hl ((List.isPrefixOf_iff_prefix.mp hpre).subset hp)
      simp only [replaceListF]
      rw [if_neg hnp, ih rest (fun h => hl (List.mem_cons_of_mem c h))]

/-- When the description text holds no ampersand at all, the unescape and
strip chain of `get_description_root` leaves it unchanged. -/
theorem descReplace_noAmp (s : String) (hs : '&' ∉ s.data) : descReplace s = s := by
  unfold descReplace replaceList
  rw [replaceListF_noop _ _ (by decide) _ _ hs,
    replaceListF_noop _ _ (by decide) _ _ hs,
    replaceListF_noop _ _ (by decide) _ _ hs]

theorem optText_ne (t : String) (h : t ≠ "") : optText t.data = some t := by
  obtain ⟨l⟩ := t
  cases l with
  | nil => exact absurd rfl h
  | cons c rest => simp [optText]

/-- The two-stage parse of the canonical embedded document: wrapping
`descrText t u` in a root element and parsing yields the root with the
VulnDiscussion and IAControls children carrying exactly the embedded texts
(when those texts contain no markup characters). -/
theorem fromstring_descr (t u : String)
    (ht : ∀ c ∈ t.data, c ≠ '<' ∧ c ≠ '&')
    (hu : ∀ c ∈ u.data, c ≠ '<' ∧ c ≠ '&') :
    fromstring ("<root>" ++ descrText t u ++ "</root>") = some (descrRoot t u) := by
  have hdata : ("<root>" ++ descrText t u ++ "</root>").data = inputFull t u := by
    simp only [inputFull, inputV, restT, restU, descrText, String.data_append,
      List.append_assoc]
  have h6 : ("<root>").length = 6 := rfl
  have h7 : ("</root>").length = 7 := rfl
  have hsplit : ("<root>" ++ descrText t u ++ "</root>").length =
      ("<root>").length + (descrText t u).length + ("</root>").length := by
    simp [String.length_append]
  obtain ⟨k, hk⟩ : ∃ k, ("<root>" ++ descrText t u ++ "</root>").length + 1 = k + 8 :=
    ⟨("<root>" ++ descrText t u ++ "</root>").length - 7, by omega⟩
  have hV : parseElement (k + 6) (inputV t u) = some (elemV t, restV u) := by
    calc parseElement (k + 6) (inputV t u)
        = (match takeText (t.data ++ restT u) with
           | none => none
           | some (txt, rest3) =>
             match parseContent (k + 5) "VulnDiscussion" rest3 with
             | none => none
             | some (children, rest4) =>
               some (XElem.mk "VulnDiscussion" [] (optText txt) children, rest4)) := rfl
      _ = some (elemV t, restV u) := by
          rw [takeText_plain t.data (restT u) ht rfl]
          rfl
  have hI : parseElement (k + 5) (restV u) = some (elemI u, "</root>".data) := by
    calc parseElement (k + 5) (restV u)
        = (match takeText (u.data ++ restU) with
           | none => none
           | some (txt, rest3) =>
             match parseContent (k + 4) "IAControls" rest3 with
             | none => none
             | some (children, rest4) =>
               some (XElem.mk "IAControls" [] (optText txt) children, rest4)) := rfl
      _ = some (elemI u, "</root>".data) := by
          rw [takeText_plain u.data restU hu rfl]
          rfl
  have hC2 : parseContent (k + 6) "root" (restV u) = some ([elemI u], []) := by
    calc parseContent (k + 6) "root" (restV u)
        = (match parseElement (k + 5) (restV u) with
           | none => none
           | some (child, rest1) =>
             match takeText rest1 with
             | none => none
             | some (q, rest2) =>
               match parseContent (k + 5) "root" rest2 with
               | none => none
               | some (siblings, rest3) => some (child :: siblings, rest3)) := rfl
      _ = some ([elemI u], []) := by rw [hI]; rfl
  have hCRoot : parseContent (k + 7) "root" (inputV t u) =
      some ([elemV t, elemI u], []) := by
    calc parseContent (k + 7) "root" (inputV t u)
        = (match parseElement (k + 6) (inputV t u) with
           | none => none
           | some (child, rest1) =>
             match takeText rest1 with
             | none => none
             | some (q, rest2) =>
               match parseContent (k + 6) "root" rest2 with
               | none => none
               | some (siblings, rest3) => some (child :: siblings, rest3)) := rfl
      _ = (match parseContent (k + 6) "root" (restV u) with
           | none => none
           | some (siblings, rest3) => some (elemV t :: siblings, rest3)) := by
          rw [hV]
          rfl
      _ = some ([elemV t, elemI u], []) := by rw [hC2]
  have hTop : parseElement (k + 8) (inputFull t u) = some (descrRoot t u, []) := by
    calc parseElement (k + 8) (inputFull t u)
        = (match parseContent (k + 7) "root" (inputV t u) with
           | none => none
           | some (children, rest4) =>
             some (XElem.mk "root" [] none children, rest4)) := rfl
      _ = some (descrRoot t u, []) := by rw [hCRoot]; rfl
  unfold fromstring
  rw [hk, hdata, hTop]
  rfl

/-- `get_description_root` on a rule whose description text is the canonical
embedded document (with markup-free texts) returns the parsed two-child
root. -/
theorem get_description_root_descr (srg : XElem) (d : XElem) (t u : String)
    (hd : find srg "xccdf-1.1:description" = some d)
    (hdt : d.text = some (descrText t u))
    (ht : ∀ c ∈ t.data, c ≠ '<' ∧ c ≠ '&')
    (hu : ∀ c ∈ u.data, c ≠ '<' ∧ c ≠ '&') :
    get_description_root srg = .ok (descrRoot t u) := by
  have hamp : '&' ∉ (descrText t u).data := by
    intro hmem
    simp only [descrText, String.data_append, List.mem_append] at hmem
    rcases hmem with ((((h1 | h2) | h3) | h4) | h5)
    · exact absurd h1 (by decide)
    · exact (ht '&' h2).2 rfl
    · exact absurd h3 (by decide)
    · exact (hu '&' h4).2 rfl
    · exact absurd h5 (by decide)
  unfold get_description_root
  simp only [hd, hdt]
  rw [descReplace_noAmp _ hamp, fromstring_descr t u ht hu]

/-! ## Claims C2, C3, C4, C5 -/

/-- C2: for every entry in the mapping returned by `get_srg_dict` on a valid
manual (one the function returns on at all), the severity field is exactly one
of "CAT I", "CAT II", "CAT III" — the values of the `SEVERITY` table for the
attributes "high", "medium", "low". -/
theorem C2_severity_values (xml_path : String) (env : Env) (srgs : SrgDict)
    (h : get_srg_dict xml_path env = .ok srgs) :
    ∀ p ∈ srgs, p.2.severity = "CAT I" ∨ p.2.severity = "CAT II" ∨
      p.2.severity = "CAT III" := by
  obtain ⟨root, _, hroot⟩ := get_srg_dict_ok_inv xml_path env srgs h
  refine addGroups_inv (fun e => e.severity = "CAT I" ∨ e.severity = "CAT II" ∨
    e.severity = "CAT III") ?_ _ [] srgs ?_ hroot
  · intro srg k e hE
    obtain ⟨_, ⟨a, _, hv⟩, _⟩ := srgEntryOf_ok_inv srg k e hE
    exact alookup_SEVERITY_mem a _ hv
  · intro p hp
    exact absurd hp (List.not_mem_nil p)

/-- Witness for C2 at the concrete one-rule manual. -/
theorem C2_severity_values_witness :
    get_srg_dict "manual.xml" envEx = .ok [(some "SRG-OS-000001", exEntry)] ∧
    ∀ p ∈ [(some "SRG-OS-000001", exEntry)],
      p.2.severity = "CAT I" ∨ p.2.severity = "CAT II" ∨ p.2.severity = "CAT III" :=
  ⟨rfl, C2_severity_values "manual.xml" envEx [(some "SRG-OS-000001", exEntry)] rfl⟩

/-- C3: on a manual with one Group holding one Rule of version
`SRG-OS-000001`, severity attribute "medium", and a description whose escaped
sub-document has a VulnDiscussion of "Example text", `get_srg_dict` returns a
mapping with key `SRG-OS-000001`, severity "CAT II" and vulnerability
discussion "Example text". -/
theorem C3_example_manual :
    get_srg_dict "manual.xml" envEx = .ok [(some "SRG-OS-000001", exEntry)] ∧
    dictFind [(some "SRG-OS-000001", exEntry)] (some "SRG-OS-000001") = some exEntry ∧
    exEntry.severity = "CAT II" ∧
    exEntry.vuln_discussion = some "Example text" ∧
    attrGet exRule "severity" = some "medium" ∧
    find exRule "xccdf-1.1:version" = some (.mk "xccdf-1.1:version" []
      (some "SRG-OS-000001") []) :=
  ⟨rfl, rfl, rfl, rfl, rfl, rfl⟩

/-- C4: when the control file exists but the manual path does not, `main`
writes "XML for SRG was not found" to stderr, exits with code 1, and the
output CSV is never created; the check precedes the output-file open. -/
theorem C4_missing_manual (args : Args) (env : Env)
    (hc : env.fileExists (controlFullPath env.cwd args.control) = true)
    (hm : env.fileExists args.manual = false) :
    main args env =
      { stderr := ["XML for SRG was not found\n"], csv := none,
        outcome := .cleanExit 1, rawOpens := [] } := by
  unfold main get_srg_dict
  simp [hc, hm]

/-- Witness for C4 at a concrete environment without the manual file. -/
theorem C4_missing_manual_witness :
    envNoManual.fileExists (controlFullPath envNoManual.cwd argsRun.control) = true ∧
    envNoManual.fileExists argsRun.manual = false ∧
    main argsRun envNoManual =
      { stderr := ["XML for SRG was not found\n"],
        csv := none, outcome := .cleanExit 1, rawOpens := [] } :=
  ⟨rfl, rfl, C4_missing_manual argsRun envNoManual rfl rfl⟩

/-- C5 counterexample: a run whose `--control` path does not exist as given
(neither relative to the working directory nor as a bare path), yet the
program does not print an error or exit with code 1: it completes
successfully, because the existence check is made on the path joined under
`..`, which does exist here. -/
theorem C5_counterexample :
    envEmpty.fileExists (pathAbsolute envEmpty.cwd argsRun.control) = false ∧
    envEmpty.fileExists argsRun.control = false ∧
    main argsRun envEmpty =
      { stderr := [], csv := some [headers],
        outcome := .success, rawOpens := ["/w/../ctl.yml"] } :=
  ⟨rfl, rfl, rfl⟩

/-- C5 amended: when the path obtained by joining `..` with the `--control`
value (resolved against the working directory) does not exist, the program
writes an error to stderr and exits with code 1 before reading any other
input or creating the output file. -/
theorem C5_amended_missing_control (args : Args) (env : Env)
    (h : env.fileExists (controlFullPath env.cwd args.control) = false) :
    main args env =
      { stderr := ["Unable to find control file " ++
          controlFullPath env.cwd args.control ++ "\n"], csv := none,
        outcome := .cleanExit 1, rawOpens := [] } := by
  unfold main
  simp [h]

/-- Witness for the amended C5 at a concrete environment. -/
theorem C5_amended_missing_control_witness :
    envNoControl.fileExists (controlFullPath envNoControl.cwd argsRun.control) = false ∧
    main argsRun envNoControl =
      { stderr := ["Unable to find control file " ++
          controlFullPath envNoControl.cwd argsRun.control ++ "\n"], csv := none,
        outcome := .cleanExit 1, rawOpens := [] } :=
  ⟨rfl, C5_amended_missing_control argsRun envNoControl rfl⟩

/-! ## Claims C6, C7, C8, C9, C10 -/

/-- C6: whenever a run creates the output file, the first row written is the
fixed 15-column header, independent of input content. -/
theorem C6_header_first (args : Args) (env : Env) (content : List (List String))
    (h : (main args env).csv = some content) :
    content.head? = some headers := by
  rcases (main_shape args env).2 with hnone | ⟨rows, hcsv, _⟩
  · rw [hnone] at h
    exact Option.noConfusion h
  · rw [hcsv] at h
    injection h with h2
    rw [← h2]
    rfl

/-- Witness for C6 at the concrete one-row run. -/
theorem C6_header_first_witness :
    (main argsRun envEx).csv = some [headers, exRowCells] ∧
    ([headers, exRowCells] : List (List String)).head? = some headers :=
  ⟨rfl, C6_header_first argsRun envEx [headers, exRowCells] rfl⟩

/-- C8: every data row of the output (every row after the header) is the
rendering of the nine-key row dict built by main: the nine populated columns
carry the SRG entry fields, the selected rule ocil text and the severity, and
the remaining six columns are always the empty string. -/
theorem C8_populated_blank_columns (args : Args) (env : Env)
    (content : List (List String)) (h : (main args env).csv = some content) :
    ∀ row ∈ content.tail, ∃ id e oc,
      row = renderRow (rowDictOf id e oc) ∧
      getCell "IA Control" row = e.ia_controls.getD "" ∧
      getCell "CCI" row = e.cci.getD "" ∧
      getCell "SRGID" row = id ∧
      getCell "SRG Requirement" row = e.title.getD "" ∧
      getCell "SRG VulDiscussion" row = e.vuln_discussion.getD "" ∧
      getCell "SRG Check" row = e.check.getD "" ∧
      getCell "SRG Fix" row = e.fix.getD "" ∧
      getCell "Fix" row = oc.getD "" ∧
      getCell "Severity" row = e.severity ∧
      getCell "VulDiscussion" row = "" ∧
      getCell "Status" row = "" ∧
      getCell "Check" row = "" ∧
      getCell "Mitigation" row = "" ∧
      getCell "Artifact Description" row = "" ∧
      getCell "Status Justification" row = "" := by
  rcases (main_shape args env).2 with hnone | ⟨rows, hcsv, hshape⟩
  · rw [hnone] at h
    exact Option.noConfusion h
  · rw [hcsv] at h
    injection h with h2
    subst h2
    intro row hrow
    obtain ⟨id, e, oc, rfl⟩ := hshape row hrow
    refine ⟨id, e, oc, ?_⟩
    rw [renderRow_rowDictOf]
    exact ⟨rfl, rfl, rfl, rfl, rfl, rfl, rfl, rfl, rfl, rfl, rfl, rfl, rfl, rfl,
      rfl, rfl⟩

/-- Witness for C8 at the concrete one-row run. -/
theorem C8_populated_blank_columns_witness :
    (main argsRun envEx).csv = some [headers, exRowCells] ∧
    ∀ row ∈ ([headers, exRowCells] : List (List String)).tail, ∃ id e oc,
      row = renderRow (rowDictOf id e oc) ∧
      getCell "IA Control" row = e.ia_controls.getD "" ∧
      getCell "CCI" row = e.cci.getD "" ∧
      getCell "SRGID" row = id ∧
      getCell "SRG Requirement" row = e.title.getD "" ∧
      getCell "SRG VulDiscussion" row = e.vuln_discussion.getD "" ∧
      getCell "SRG Check" row = e.check.getD "" ∧
      getCell "SRG Fix" row = e.fix.getD "" ∧
      getCell "Fix" row = oc.getD "" ∧
      getCell "Severity" row = e.severity ∧
      getCell "VulDiscussion" row = "" ∧
      getCell "Status" row = "" ∧
      getCell "Check" row = "" ∧
      getCell "Mitigation" row = "" ∧
      getCell "Artifact Description" row = "" ∧
      getCell "Status Justification" row = "" :=
  ⟨rfl, C8_populated_blank_columns argsRun envEx [headers, exRowCells] rfl⟩

/-- C7: when the whole pipeline opens and every selection of every control
resolves (the control id is a key of the SRG mapping, the selected rule id is
a key of the rules index with a dir entry, and the rule-model collaborators
succeed), the run succeeds, the CSV holds exactly one data row per selection
after the header, and the SRGID cell of each data row is the id of the
control its selection came from. -/
theorem C7_row_count (args : Args) (env : Env) (srgs : SrgDict) (doc : ControlDoc)
    (items : List ControlItem) (rj : RuleJson) (ey : EnvYaml)
    (hc : env.fileExists (controlFullPath env.cwd args.control) = true)
    (hs : get_srg_dict args.manual env = .ok srgs)
    (hraw : env.open_raw (controlFullPath env.cwd args.control) = .ok doc)
    (hj : env.readJson args.json = .ok rj)
    (he : env.open_environment args.build_config_yaml
      (args.root ++ "/products/" ++ args.product ++ "/product.yml") = .ok ey)
    (hcl : doc.controls = some items)
    (hres : ∀ item ∈ items, (∃ srg, dictFind srgs (some item.id) = some srg) ∧
      ∀ r ∈ (from_control_dict item).selections,
        ∃ entry, alookup rj r = some entry ∧ ∃ dir, alookup entry "dir" = some dir)
    (hlib1 : ∀ d, ∃ s, env.get_rule_dir_yaml d = .ok s)
    (hlib2 : ∀ f y, ∃ ro, env.rule_from_yaml f y = .ok ro)
    (hlib3 : ∀ p ro, ∃ ro2, env.normalize p ro = .ok ro2) :
    ∃ rows, main args env =
      { stderr := [], csv := some (headers :: rows), outcome := .success,
        rawOpens := [controlFullPath env.cwd args.control] } ∧
      rows.length = (items.map (fun it => (from_control_dict it).selections.length)).sum ∧
      rows.map (getCell "SRGID") =
        items.flatMap (fun it => (from_control_dict it).selections.map (fun _ => it.id)) := by
  have hall : ∀ item ∈ items, ∀ r ∈ (from_control_dict item).selections,
      ∃ cells, buildRow env args.product ey srgs rj item r = .ok cells := by
    intro item hitem r hr
    obtain ⟨⟨srg, hsrg⟩, hsel⟩ := hres item hitem
    obtain ⟨entry, hent, dir, hdir⟩ := hsel r hr
    obtain ⟨ro, hro⟩ := handle_rule_yaml_ok env args.product dir ey hlib1 hlib2 hlib3
    exact ⟨_, buildRow_eq_ok env args.product ey srgs rj item r srg entry dir ro
      hsrg hent hdir hro⟩
  obtain ⟨rows, hpc, hlen, hmap⟩ :=
    processControls_ok env args.product ey srgs rj items [] hall
  rw [List.nil_append] at hpc
  refine ⟨rows, ?_, hlen, hmap⟩
  unfold main
  simp [hc, hs, hraw, hj, he, hcl, hpc]

/-- Witness for C7 at the concrete one-selection run. -/
theorem C7_row_count_witness :
    ∃ rows, main argsRun envEx =
      { stderr := [], csv := some (headers :: rows), outcome := .success,
        rawOpens := [controlFullPath envEx.cwd argsRun.control] } ∧
      rows.length = (exItems.map (fun it => (from_control_dict it).selections.length)).sum ∧
      rows.map (getCell "SRGID") =
        exItems.flatMap (fun it => (from_control_dict it).selections.map (fun _ => it.id)) :=
  C7_row_count argsRun envEx [(some "SRG-OS-000001", exEntry)]
    { controls := some exItems } exItems [("rule_a", [("dir", "/dir/rule_a")])]
    { vals := [] } rfl rfl rfl rfl rfl rfl
    (by
      intro item hitem
      have hitem2 : item = { id := "SRG-OS-000001", selections := ["rule_a"] } := by
        simpa [exItems] using hitem
      subst hitem2
      refine ⟨⟨exEntry, rfl⟩, ?_⟩
      intro r hr
      have hr2 : r = "rule_a" := by
        simpa [from_control_dict] using hr
      subst hr2
      exact ⟨[("dir", "/dir/rule_a")], rfl, "/dir/rule_a", rfl⟩)
    (fun d => ⟨d ++ "/rule.yml", rfl⟩)
    (fun f y => ⟨{ ocil := some "ocil text" }, rfl⟩)
    (fun p ro => ⟨ro, rfl⟩)

/-- C9: when the pipeline opens and the controls split as a clean prefix
followed by a control one of whose selections hits a missing SRG id or a
missing rule index id (its earlier selections having resolved), the run ends
in an unhandled KeyError (abnormal termination, no recovery), and the CSV
keeps the header and exactly the rows already written: those of the clean
prefix of controls and those of the failing control's earlier selections. -/
theorem C9_lookup_failure (args : Args) (env : Env) (srgs : SrgDict)
    (doc : ControlDoc) (rj : RuleJson) (ey : EnvYaml)
    (done rest : List ControlItem) (bad : ControlItem)
    (selDone : List String) (r : String) (more : List String)
    (rows rowsB : List (List String))
    (hc : env.fileExists (controlFullPath env.cwd args.control) = true)
    (hs : get_srg_dict args.manual env = .ok srgs)
    (hraw : env.open_raw (controlFullPath env.cwd args.control) = .ok doc)
    (hj : env.readJson args.json = .ok rj)
    (he : env.open_environment args.build_config_yaml
      (args.root ++ "/products/" ++ args.product ++ "/product.yml") = .ok ey)
    (hcl : doc.controls = some (done ++ bad :: rest))
    (hdone : processControls env args.product ey srgs rj [] done = (rows, none))
    (hbadsel : (from_control_dict bad).selections = selDone ++ r :: more)
    (hseldone : processSelections env args.product ey srgs rj bad rows selDone =
      (rowsB, none))
    (hbad : dictFind srgs (some bad.id) = none ∨
      (∃ srg, dictFind srgs (some bad.id) = some srg ∧ alookup rj r = none)) :
    ∃ k, (k = bad.id ∨ k = r) ∧
      main args env =
        { stderr := [], csv := some (headers :: rowsB),
          outcome := .crash (.keyError k),
          rawOpens := [controlFullPath env.cwd args.control] } := by
  have hfail : ∃ k, (k = bad.id ∨ k = r) ∧
      buildRow env args.product ey srgs rj bad r = .error (.keyError k) := by
    rcases hbad with hnone | ⟨srg, hsrg, hent⟩
    · exact ⟨bad.id, Or.inl rfl, by unfold buildRow; simp only [hnone]⟩
    · exact ⟨r, Or.inr rfl, by unfold buildRow; simp only [hsrg, hent]⟩
  obtain ⟨k, hk, hb⟩ := hfail
  have hselTail : processSelections env args.product ey srgs rj bad rowsB (r :: more) =
      (rowsB, some (.keyError k)) :=
    processSelections_cons_err env args.product ey srgs rj bad rowsB r more _ hb
  have hsel : processSelections env args.product ey srgs rj bad rows
      (from_control_dict bad).selections = (rowsB, some (.keyError k)) := by
    rw [hbadsel,
      processSelections_append env args.product ey srgs rj bad selDone rows rowsB
        hseldone (r :: more)]
    exact hselTail
  have hpc : processControls env args.product ey srgs rj [] (done ++ bad :: rest) =
      (rowsB, some (.keyError k)) := by
    rw [processControls_append env args.product ey srgs rj done [] rows hdone
      (bad :: rest)]
    exact processControls_cons_err env args.product ey srgs rj bad rest rows rowsB _ hsel
  refine ⟨k, hk, ?_⟩
  unfold main
  simp [hc, hs, hraw, hj, he, hcl, hpc]

/-- Witness for C9: a run whose single control resolves its first selection
(one row is written) and then selects a rule id absent from the rules
index. -/
theorem C9_lookup_failure_witness :
    ∃ k, (k = "SRG-OS-000001" ∨ k = "rule_missing") ∧
      main argsRun envBadRule =
        { stderr := [], csv := some [headers, exRowCells],
          outcome := .crash (.keyError k),
          rawOpens := [controlFullPath envBadRule.cwd argsRun.control] } :=
  C9_lookup_failure argsRun envBadRule [(some "SRG-OS-000001", exEntry)]
    { controls :=
        some [{ id := "SRG-OS-000001", selections := ["rule_a", "rule_missing"] }] }
    [("rule_a", [("dir", "/dir/rule_a")])] { vals := [] }
    [] [] { id := "SRG-OS-000001", selections := ["rule_a", "rule_missing"] }
    ["rule_a"] "rule_missing" [] [] [exRowCells]
    rfl rfl rfl rfl rfl rfl rfl rfl rfl
    (Or.inr ⟨exEntry, rfl, rfl⟩)

/-- C10: the program never uses the `--control` path as given: it joins it
under `..`, resolves against the working directory, and performs the
existence check and the control file read on that joined path; a relative
path is thus rewritten to `cwd/../path` (so one that exists as given but not
under `..` is rejected), and only an absolute path passes through the join
unchanged. -/
theorem C10_control_join (args : Args) (env : Env) :
    (isAbsolute args.control = false →
      controlFullPath env.cwd args.control =
        env.cwd ++ "/" ++ (".." ++ "/" ++ args.control) ∧
      controlFullPath env.cwd args.control ≠ args.control) ∧
    (isAbsolute args.control = true →
      controlFullPath env.cwd args.control = args.control) ∧
    (env.fileExists (controlFullPath env.cwd args.control) = false →
      main args env =
        { stderr := ["Unable to find control file " ++
            controlFullPath env.cwd args.control ++ "\n"], csv := none,
          outcome := .cleanExit 1, rawOpens := [] }) ∧
    ((main args env).rawOpens = [] ∨
      (main args env).rawOpens = [controlFullPath env.cwd args.control]) := by
  refine ⟨?_, ?_, ?_, (main_shape args env).1⟩
  · intro h
    have h2 : isAbsolute (".." ++ "/" ++ args.control) = false := rfl
    have ha : controlFullPath env.cwd args.control =
        env.cwd ++ "/" ++ (".." ++ "/" ++ args.control) := by
      unfold controlFullPath pathJoin pathAbsolute
      have hinner : (if isAbsolute args.control = true then args.control
          else ".." ++ "/" ++ args.control) = ".." ++ "/" ++ args.control :=
        if_neg (by rw [h]; simp)
      rw [hinner, if_neg (by rw [h2]; simp)]
    refine ⟨ha, ?_⟩
    intro heq
    rw [ha] at heq
    have hlen := congrArg String.length heq
    have e1 : ("..").length = 2 := rfl
    have e2 : ("/").length = 1 := rfl
    simp only [String.length_append, e1, e2] at hlen
    omega
  · intro h
    unfold controlFullPath pathJoin pathAbsolute
    simp [h]
  · intro h
    unfold main
    simp [h]

/-- Witness for C10 at a concrete relative control path. -/
theorem C10_control_join_witness :
    (controlFullPath "/w" "ctl.yml" = "/w" ++ "/" ++ (".." ++ "/" ++ "ctl.yml") ∧
      controlFullPath "/w" "ctl.yml" ≠ "ctl.yml") ∧
    main argsRun envNoControl =
      { stderr := ["Unable to find control file " ++
          controlFullPath "/w" "ctl.yml" ++ "\n"], csv := none,
        outcome := .cleanExit 1, rawOpens := [] } :=
  ⟨(C10_control_join argsRun envNoControl).1 rfl,
   (C10_control_join argsRun envNoControl).2.2.1 rfl⟩

/-! ## Claim C1 -/

/-- C1 counterexample: a rule whose description text embeds a VulnDiscussion
element with source text content "A & B" (the text stands between the
VulnDiscussion open and close markup of the description text).  The value the
program stores and writes into the `SRG VulDiscussion` column is "AB": the
`" & "` of the source text has been deleted, so the written value is not
exactly the source text content. -/
theorem C1_counterexample :
    (∃ d, find cexRule "xccdf-1.1:description" = some d ∧
      d.text = some ("<VulnDiscussion>" ++ "A & B" ++
        "</VulnDiscussion><IAControls>x</IAControls>")) ∧
    srgEntryOf cexRule = .ok (some "SRG-OS-000001", cexEntry) ∧
    cexEntry.vuln_discussion = some "AB" ∧
    main argsRun envCex =
      { stderr := [],
        csv := some [headers,
          renderRow (rowDictOf "SRG-OS-000001" cexEntry (some "ocil text"))],
        outcome := .success, rawOpens := ["/w/../ctl.yml"] } ∧
    getCell "SRG VulDiscussion"
      (renderRow (rowDictOf "SRG-OS-000001" cexEntry (some "ocil text"))) = "AB" ∧
    ("AB" : String) ≠ "A & B" :=
  ⟨⟨.mk "xccdf-1.1:description" []
      (some "<VulnDiscussion>A & B</VulnDiscussion><IAControls>x</IAControls>") [],
    rfl, rfl⟩, rfl, rfl, rfl, rfl, by decide⟩

/-- C1 amended: the values written into `SRG Check` and `SRG Fix` are exactly
the text content of the source description and fix elements, with no
transformation; the value written into `SRG VulDiscussion` equals the
embedded VulnDiscussion text exactly whenever that text contains no markup
characters (`<` or `&`) — the code unescapes `&lt;`/`&gt;` and deletes every
`" & "` from the description text before re-parsing, so texts containing an
ampersand are altered (see the counterexample). -/
theorem C1_amended_roundtrip (srg : XElem) (k : Option String) (e : SrgEntry)
    (d f : XElem) (t u fixText : String)
    (hd : find srg "xccdf-1.1:description" = some d)
    (hdt : d.text = some (descrText t u))
    (hf : find srg "xccdf-1.1:fix" = some f)
    (hft : f.text = some fixText)
    (ht : ∀ c ∈ t.data, c ≠ '<' ∧ c ≠ '&')
    (htne : t ≠ "")
    (hu : ∀ c ∈ u.data, c ≠ '<' ∧ c ≠ '&')
    (hok : srgEntryOf srg = .ok (k, e)) :
    e.check = some (descrText t u) ∧
    e.fix = some fixText ∧
    e.vuln_discussion = some t ∧
    ∀ id oc, getCell "SRG Check" (renderRow (rowDictOf id e oc)) = descrText t u ∧
      getCell "SRG Fix" (renderRow (rowDictOf id e oc)) = fixText ∧
      getCell "SRG VulDiscussion" (renderRow (rowDictOf id e oc)) = t := by
  obtain ⟨_, _, _, ⟨descRoot, hdr, ⟨vulnEl, hv, hvd⟩, _⟩, _, ⟨fixEl, hfE, hfx⟩,
    ⟨checkEl, hcE, hck⟩⟩ := srgEntryOf_ok_inv srg k e hok
  rw [get_description_root_descr srg d t u hd hdt ht hu] at hdr
  injection hdr with hdr2
  subst hdr2
  have hvE : find (descrRoot t u) "VulnDiscussion" = some (elemV t) := rfl
  rw [hvE] at hv
  injection hv with hv2
  have hcheck : e.check = some (descrText t u) := by
    rw [hck]
    rw [hd] at hcE
    injection hcE with hcE2
    rw [← hcE2, hdt]
  have hfix : e.fix = some fixText := by
    rw [hfx]
    rw [hf] at hfE
    injection hfE with hfE2
    rw [← hfE2, hft]
  have hvuln : e.vuln_discussion = some t := by
    rw [hvd, ← hv2]
    exact optText_ne t htne
  refine ⟨hcheck, hfix, hvuln, ?_⟩
  intro id oc
  rw [renderRow_rowDictOf]
  refine ⟨?_, ?_, ?_⟩
  · show e.check.getD "" = descrText t u
    rw [hcheck]
    rfl
  · show e.fix.getD "" = fixText
    rw [hfix]
    rfl
  · show e.vuln_discussion.getD "" = t
    rw [hvuln]
    rfl

/-- Witness for the amended C1 at the concrete example rule. -/
theorem C1_amended_roundtrip_witness :
    exEntry.check = some (descrText "Example text" "x") ∧
    exEntry.fix = some "Example fix" ∧
    exEntry.vuln_discussion = some "Example text" ∧
    ∀ id oc, getCell "SRG Check" (renderRow (rowDictOf id exEntry oc)) =
        descrText "Example text" "x" ∧
      getCell "SRG Fix" (renderRow (rowDictOf id exEntry oc)) = "Example fix" ∧
      getCell "SRG VulDiscussion" (renderRow (rowDictOf id exEntry oc)) =
        "Example text" :=
  C1_amended_roundtrip exRule (some "SRG-OS-000001") exEntry
    (.mk "xccdf-1.1:description" []
      (some "<VulnDiscussion>Example text</VulnDiscussion><IAControls>x</IAControls>") [])
    (.mk "xccdf-1.1:fix" [] (some "Example fix") [])
    "Example text" "x" "Example fix"
    rfl rfl rfl rfl (by decide) (by decide) (by decide) rfl

end CreateSrgExport
